import Mathlib

/-!
Shallow embedding of src/backtrader/brokers/fixbroker.py.

Modelling conventions: Python dictionaries (broker.orders, broker.positions
and the dynamic attribute table read by the news handler) are association
lists; the notification queue is a list whose head is the oldest entry;
Python numbers are Rat and Int; a Python exception is an Except error value.
Engine-side classes that fixbroker.py imports (backtrader Order and
Position, the py3 queue module) are outside src and are modelled from the
spec where noted.
-/

/-- A Python value as produced by the news-message coercion loop:
None, int, float (modelled exactly as a rational) or str. -/
inductive PyVal where
  | VNone : PyVal
  | VInt : Int → PyVal
  | VFloat : Rat → PyVal
  | VStr : String → PyVal
deriving DecidableEq

/-- A Python exception raised by a modelled code path. -/
inductive PyError where
  | valueError : PyError
  | indexError : PyError
  | attrErrorNoneStatus : PyError
  | attrErrorSessionID : PyError
deriving DecidableEq

/-- backtrader.position.Position as used by fixbroker.py: a net size and a
volume-weighted average price. -/
structure Position where
  size : Rat
  price : Rat
deriving DecidableEq

/-- Modelled from the spec: the Position constructor (backtrader/position.py,
outside src) defaults to a flat zero position, which is what
defaultdict(Position) materializes on a missing key (spec section 4.5). -/
def Position.default : Position := { size := 0, price := 0 }

/-- Modelled from the spec: the order status enumeration of the engine order
module (outside src).  Submitted is the initial state; Order.Cancelled in the
source is an alias of Order.Canceled in that module. -/
inductive OrderStatus where
  | Submitted : OrderStatus
  | Accepted : OrderStatus
  | Completed : OrderStatus
  | Rejected : OrderStatus
  | Canceled : OrderStatus
deriving DecidableEq

/-- Modelled from the spec: OrderBase.execute (outside src) records the
execution detail on the order; the Fill branch passes the fill price, the
signed fill size and the resulting position size and price. -/
structure ExecDetail where
  price : Rat
  size : Rat
  psize : Rat
  pprice : Rat
deriving DecidableEq

/-- The FIXOrder state tracked by the broker registry: the generated client
order id, the current status and the recorded execution detail. -/
structure FIXOrder where
  order_id : String
  status : OrderStatus
  executed : Option ExecDetail
deriving DecidableEq

/-- The side of an execution report (FIX tag 54). -/
inductive Side where
  | Buy : Side
  | Sell : Side
deriving DecidableEq

/-- The exec types dispatched in FIXApplication.fromApp.  PositionSnapshot is
the venue-specific character code P. -/
inductive ExecType where
  | PendingNew : ExecType
  | New : ExecType
  | Fill : ExecType
  | Rejected : ExecType
  | Canceled : ExecType
  | PositionSnapshot : ExecType
deriving DecidableEq

/-- The fields of an inbound execution report that fromApp reads. -/
structure ExecReport where
  etype : ExecType
  clOrdID : String
  symbol : String
  side : Side
  price : Rat
  orderQty : Rat
  cumQty : Rat
deriving DecidableEq

/-- The mutable broker state of FIXBroker: the order registry, the position
map, the notification queue (head oldest) and the dynamic attribute table
that the news handler reads and writes. -/
structure BrokerState where
  orders : List (String × FIXOrder)
  positions : List (String × Position)
  queue : List FIXOrder
  attrs : List (String × PyVal)
deriving DecidableEq

/-- Lookup in an association list modelling a Python dict. -/
def alistLookup {α : Type} : List (String × α) → String → Option α
  | [], _ => none
  | (k2, v) :: t, k => if k2 = k then some v else alistLookup t k

/-- Assignment into an association list modelling a Python dict: overwrite
the existing binding or append a new one. -/
def alistSet {α : Type} : List (String × α) → String → α → List (String × α)
  | [], k, v => [(k, v)]
  | (k2, v2) :: t, k, v => if k2 = k then (k, v) :: t else (k2, v2) :: alistSet t k v

/-- The existing-position branch of FIXApplication.update_position
(lines 165-168): if the sum is nonzero the average price is recomputed with
the old size and the size is incremented; on an exactly offsetting fill the
guard is false and the position is returned with both fields unchanged. -/
def update_existing (pos : Position) (price size : Rat) : Position :=
  if pos.size + size ≠ 0 then
    { size := pos.size + size,
      price := (pos.price * pos.size + price * size) / (pos.size + size) }
  else pos

/-- FIXApplication.update_position (lines 162-170): an existing position is
updated in place, a missing symbol opens a fresh position at the fill price. -/
def update_position (positions : List (String × Position)) (symbol : String)
    (price size : Rat) : Position :=
  match alistLookup positions symbol with
  | some pos => update_existing pos price size
  | none => { size := size, price := price }

/-- FIXBroker.notify (line 327-328): enqueue the order on the notification
queue. -/
def notify (b : BrokerState) (o : FIXOrder) : BrokerState :=
  { b with queue := b.queue ++ [o] }

/-- FIXBroker.get_notification (lines 321-325): a non-blocking dequeue that
returns none on an empty queue instead of raising. -/
def get_notification (b : BrokerState) : Option FIXOrder × BrokerState :=
  match b.queue with
  | [] => (none, b)
  | o :: rest => (some o, { b with queue := rest })

/-- FIXBroker.getposition (lines 318-319): broker.positions is a
defaultdict(Position), so reading a missing symbol materializes and stores a
default flat position for it. -/
def getposition (b : BrokerState) (symbol : String) : Position × BrokerState :=
  match alistLookup b.positions symbol with
  | some pos => (pos, b)
  | none =>
    (Position.default, { b with positions := alistSet b.positions symbol Position.default })

/-- The shared shape of the PendingNew/New, Rejected and Canceled branches of
fromApp: if the client order id is registered, set its status and notify;
otherwise only log. -/
def transitionAndNotify (b : BrokerState) (oid : String) (st : OrderStatus) : BrokerState :=
  match alistLookup b.orders oid with
  | some o =>
    let o2 := { o with status := st }
    notify { b with orders := alistSet b.orders oid o2 } o2
  | none => b

/-- The ExecutionReport branch of FIXApplication.fromApp (lines 200-257),
dispatching on the exec type.  In the Fill branch the position is updated and
stored before the order registry is consulted, the execution detail is
recorded via order.execute, and no notification is enqueued. -/
def execReportEffect (b : BrokerState) (r : ExecReport) : BrokerState :=
  match r.etype with
  | ExecType.PendingNew => transitionAndNotify b r.clOrdID OrderStatus.Accepted
  | ExecType.New => transitionAndNotify b r.clOrdID OrderStatus.Accepted
  | ExecType.Fill =>
    let fsize := if r.side = Side.Sell then -r.orderQty else r.orderQty
    let pos := update_position b.positions r.symbol r.price fsize
    let b2 := { b with positions := alistSet b.positions r.symbol pos }
    match alistLookup b2.orders r.clOrdID with
    | some o =>
      { b2 with orders :=
          (alistSet b2.orders r.clOrdID
            { o with
                status := OrderStatus.Completed,
                executed := some { price := r.price, size := fsize,
                                   psize := pos.size, pprice := pos.price } }) }
    | none => b2
  | ExecType.Rejected => transitionAndNotify b r.clOrdID OrderStatus.Rejected
  | ExecType.Canceled => transitionAndNotify b r.clOrdID OrderStatus.Canceled
  | ExecType.PositionSnapshot =>
    let fsize := if r.side = Side.Sell then -r.cumQty else r.cumQty
    { b with positions :=
        alistSet b.positions r.symbol (update_position b.positions r.symbol r.price fsize) }

/-- The field separator used when tokenizing a news message. -/
def eqChar : Char := '='

/-- The decimal point accepted by the float coercion. -/
def dotChar : Char := '.'

/-- The tag code that names an account field in a news message. -/
def tagAccountName : String := "10008"

/-- The tag code that carries an account field value in a news message. -/
def tagFreeText : String := "58"

/-- The pre-declared broker attribute backing getcash and getvalue. -/
def hbplKey : String := "HardBuyingPowerLimit"

/-- Split a character list on a separator, keeping empty segments, as Python
str.split does. -/
def splitOnChar (sep : Char) : List Char → List (List Char)
  | [] => [[]]
  | c :: rest =>
    match splitOnChar sep rest with
    | [] => if c = sep then [[], []] else [[c]]
    | h :: t => if c = sep then [] :: h :: t else (c :: h) :: t

/-- Value of a list of decimal digit characters. -/
def digitsVal (cs : List Char) : Nat :=
  cs.foldl (fun a c => a * 10 + (c.toNat - 48)) 0

/-- Strip one optional leading sign, returning the sign and the rest. -/
def stripSign : List Char → Int × List Char
  | '-' :: t => (-1, t)
  | '+' :: t => (1, t)
  | cs => (1, cs)

/-- Model of the Python int builtin applied to a string: an optional sign
followed by at least one decimal digit; anything else raises ValueError,
modelled as none.  Whitespace stripping and underscores are not modelled. -/
def pyInt? (cs : List Char) : Option Int :=
  let sd := stripSign cs
  if sd.2 ≠ [] ∧ sd.2.all Char.isDigit then some (sd.1 * (digitsVal sd.2 : Int)) else none

/-- Model of the Python float builtin applied to a string: an optional sign,
decimal digits with at most one point and at least one digit overall.
Exponents, infinities and nan are not modelled. -/
def pyFloat? (cs : List Char) : Option Rat :=
  let sd := stripSign cs
  match splitOnChar dotChar sd.2 with
  | [a] =>
    if a ≠ [] ∧ a.all Char.isDigit then some ((sd.1 : Rat) * (digitsVal a : Rat)) else none
  | [a, f] =>
    if (a ≠ [] ∨ f ≠ []) ∧ a.all Char.isDigit ∧ f.all Char.isDigit then
      some ((sd.1 : Rat) * ((digitsVal a : Rat) + (digitsVal f : Rat) / ((10 ^ f.length : Nat) : Rat)))
    else none
  | _ => none

/-- The ordered int-then-float-then-str coercion of a tag 58 value
(fromApp lines 186-191). -/
def pyCoerce (cs : List Char) : PyVal :=
  match pyInt? cs with
  | some n => PyVal.VInt n
  | none =>
    match pyFloat? cs with
    | some q => PyVal.VFloat q
    | none => PyVal.VStr (String.mk cs)

/-- The news-message tokenizing loop of fromApp (lines 178-192): empty items
and items without a separator are skipped; a 10008 item appends a pending
pair (its value becomes the field name, paired with None); a 58 item coerces
its value and overwrites the value of the most recent pair, raising
IndexError if there is none; an item with more than one separator raises
ValueError at tuple unpacking. -/
def buildNewsResult : List (List Char) → List (String × PyVal) →
    Except PyError (List (String × PyVal))
  | [], acc => Except.ok acc.reverse
  | item :: rest, acc =>
    if item.isEmpty || !(item.contains eqChar) then buildNewsResult rest acc
    else
      match splitOnChar eqChar item with
      | [code, val] =>
        if String.mk code = tagAccountName then
          buildNewsResult rest ((String.mk val, PyVal.VNone) :: acc)
        else if String.mk code = tagFreeText then
          match acc with
          | [] => Except.error PyError.indexError
          | (k, _) :: t => buildNewsResult rest ((k, pyCoerce val) :: t)
        else buildNewsResult rest acc
      | _ => Except.error PyError.valueError

/-- The setattr loop of fromApp (lines 194-196), restricted to the
value-carrying snapshot attributes held in BrokerState.attrs: each parsed
pair overwrites the attribute of that name only when it already exists.
This restricted view is adequate only for messages whose field names are
snapshot attributes; the hasattr guard of the source in fact ranges over
the whole broker attribute namespace, which applySnapshotDyn models. -/
def applySnapshot (attrs : List (String × PyVal)) (result : List (String × PyVal)) :
    List (String × PyVal) :=
  result.foldl (fun a kv => if (alistLookup a kv.1).isSome then alistSet a kv.1 kv.2 else a) attrs

/-- An inbound application-level message as dispatched by fromApp: a news
message (already tokenized on the SOH separator), an execution report, or
any other type, which is only logged. -/
inductive FIXMessage where
  | news : List (List Char) → FIXMessage
  | execReport : ExecReport → FIXMessage
  | other : FIXMessage

/-- FIXApplication.fromApp (lines 172-260): dispatch on the message type. -/
def fromApp (b : BrokerState) (m : FIXMessage) : Except PyError BrokerState :=
  match m with
  | FIXMessage.news items =>
    match buildNewsResult items [] with
    | Except.error e => Except.error e
    | Except.ok result => Except.ok { b with attrs := applySnapshot b.attrs result }
  | FIXMessage.execReport r => Except.ok (execReportEffect b r)
  | FIXMessage.other => Except.ok b

/-- FIXBroker.getcash (lines 312-313): returns the HardBuyingPowerLimit
attribute. -/
def getcash (b : BrokerState) : PyVal :=
  (alistLookup b.attrs hbplKey).getD PyVal.VNone

/-- FIXBroker.getvalue (lines 315-316): returns the same
HardBuyingPowerLimit attribute as getcash. -/
def getvalue (b : BrokerState) : PyVal :=
  (alistLookup b.attrs hbplKey).getD PyVal.VNone

/-- Truthiness of the name tested by the not-found guard in FIXBroker.cancel
(line 360): the source tests the builtin function named ord, not the looked
up order, and a Python function object is always truthy. -/
def ordBuiltinTruthy : Bool := true

/-- FIXBroker.cancel (lines 357-367).  The not-found guard never fires (it
tests the always-truthy builtin), so a missing order reaches the status
attribute access on None and raises AttributeError; an order already in
Canceled status returns without sending; otherwise cancel_fix builds the
cancel message and raises AttributeError at the send because it reads
app.sessionID while FIXApplication only defines session_id. -/
def cancel (b : BrokerState) (orderId : String) : Except PyError BrokerState :=
  if ordBuiltinTruthy = false then Except.ok b
  else
    match alistLookup b.orders orderId with
    | none => Except.error PyError.attrErrorNoneStatus
    | some o =>
      if o.status = OrderStatus.Canceled then Except.ok b
      else Except.error PyError.attrErrorSessionID

/-- FIXBroker.__init__ (lines 269-293): empty registries, empty queue, and
the pre-declared HardBuyingPowerLimit attribute initialized to the int 0.
The attrs field holds only the value-carrying snapshot attribute; the full
attribute namespace of a freshly constructed broker, as seen by hasattr, is
initialBrokerDyn. -/
def initialBroker : BrokerState :=
  { orders := [], positions := [], queue := [], attrs := [(hbplKey, PyVal.VInt 0)] }

/-- Repeatedly apply Fill-report position updates for one symbol: each fill
runs update_position and stores the result back, as the Fill branch of
fromApp does (lines 223-224). -/
def applyFills (positions : List (String × Position)) (symbol : String)
    (fills : List (Rat × Rat)) : List (String × Position) :=
  fills.foldl (fun ps f => alistSet ps symbol (update_position ps symbol f.1 f.2)) positions

/-- Total signed volume of a list of (price, signedSize) fills. -/
def fillVolume (fills : List (Rat × Rat)) : Rat :=
  (fills.map Prod.snd).sum

/-- Total signed cost of a list of (price, signedSize) fills. -/
def fillCost (fills : List (Rat × Rat)) : Rat :=
  (fills.map (fun f => f.1 * f.2)).sum

/-- The order status that each exec type writes when the client order id is
registered; position snapshots write none. -/
def execStatusOf : ExecType → Option OrderStatus
  | ExecType.PendingNew => some OrderStatus.Accepted
  | ExecType.New => some OrderStatus.Accepted
  | ExecType.Fill => some OrderStatus.Completed
  | ExecType.Rejected => some OrderStatus.Rejected
  | ExecType.Canceled => some OrderStatus.Canceled
  | ExecType.PositionSnapshot => none

/-- Symbol used in concrete scenarios. -/
def symX : String := "X"

/-- Client order id of a registered order in concrete scenarios. -/
def oidA : String := "A"

/-- A client order id that was never registered. -/
def oidMissing : String := "missing"

/-- The account value string of the spec scenario. -/
def hbplVal : String := "98765.43"

/-- News item naming the HardBuyingPowerLimit account field. -/
def newsItemA : String := "10008=HardBuyingPowerLimit"

/-- News item carrying the account value. -/
def newsItemB : String := "58=98765.43"

/-- A header-style item of a news message, skipped by the parsing loop. -/
def newsItemHdr : String := "35=B"

/-- News item naming a field that is not a broker attribute. -/
def newsItemC : String := "10008=NoSuchField"

/-- News item carrying an integer value for the unknown field. -/
def newsItemD : String := "58=5"

/-- A broker holding only a long position of 5 at average price 10 on X. -/
def brokerWithPosX : BrokerState :=
  { orders := [], positions := [(symX, { size := 5, price := 10 })], queue := [], attrs := [] }

/-- A Fill execution report for an unregistered client order id. -/
def fillReportUnknown : ExecReport :=
  { etype := ExecType.Fill, clOrdID := oidMissing, symbol := symX, side := Side.Buy,
    price := 20, orderQty := 5, cumQty := 0 }

/-- A PendingNew execution report for an unregistered client order id. -/
def pendingReportUnknown : ExecReport :=
  { etype := ExecType.PendingNew, clOrdID := oidMissing, symbol := symX, side := Side.Buy,
    price := 0, orderQty := 0, cumQty := 0 }

/-- A registered order sitting in Accepted status. -/
def orderAccepted : FIXOrder :=
  { order_id := oidA, status := OrderStatus.Accepted, executed := none }

/-- A broker holding one Accepted order A and nothing else. -/
def brokerWithOrderA : BrokerState :=
  { orders := [(oidA, orderAccepted)], positions := [], queue := [], attrs := [] }

/-- A Fill execution report for order A: buy 100 at 10.5 on X. -/
def fillReportA : ExecReport :=
  { etype := ExecType.Fill, clOrdID := oidA, symbol := symX, side := Side.Buy,
    price := 21 / 2, orderQty := 100, cumQty := 0 }

/-- A registered order already in the terminal Completed status. -/
def orderCompleted : FIXOrder :=
  { order_id := oidA, status := OrderStatus.Completed, executed := none }

/-- A broker whose only order A is already Completed. -/
def brokerWithCompletedA : BrokerState :=
  { orders := [(oidA, orderCompleted)], positions := [], queue := [], attrs := [] }

/-- A Canceled execution report for order A. -/
def cancelReportA : ExecReport :=
  { etype := ExecType.Canceled, clOrdID := oidA, symbol := symX, side := Side.Buy,
    price := 0, orderQty := 0, cumQty := 0 }

/-- An order used as a queued notification payload. -/
def notifOrder : FIXOrder :=
  { order_id := oidA, status := OrderStatus.Submitted, executed := none }

/-- A broker whose notification queue holds exactly one order. -/
def brokerWithNotif : BrokerState :=
  { orders := [], positions := [], queue := [notifOrder], attrs := [] }

/-- A value sitting in the broker attribute namespace.  Python attributes
are dynamically typed, so one name can hold the order registry, the
position map, the queue, a plain value, or something the news handler never
inspects (config, settings, the session app handle, flags, methods),
modelled opaquely as AOther. -/
inductive PyAttr where
  | AOrders : List (String × FIXOrder) → PyAttr
  | APositions : List (String × Position) → PyAttr
  | AQueue : List FIXOrder → PyAttr
  | AVal : PyVal → PyAttr
  | AOther : PyAttr
deriving DecidableEq

/-- Attribute name of the session configuration. -/
def configAttrName : String := "config"

/-- Attribute name of the debug flag. -/
def debugAttrName : String := "debug"

/-- Attribute name of the notification queue. -/
def queueAttrName : String := "queue"

/-- Attribute name of the starting cash figure. -/
def startingcashAttrName : String := "startingcash"

/-- Attribute name of the cash figure. -/
def cashAttrName : String := "cash"

/-- Attribute name of the stop flag of the session loop. -/
def doneAttrName : String := "done"

/-- Attribute name of the session application handle. -/
def appAttrName : String := "app"

/-- Attribute name of the order registry. -/
def ordersAttrName : String := "orders"

/-- Attribute name of the position map. -/
def positionsAttrName : String := "positions"

/-- Attribute name of the executions map. -/
def executionsAttrName : String := "executions"

/-- Attribute name of the session settings handle. -/
def settingsAttrName : String := "settings"

/-- News item naming the orders attribute of the broker. -/
def newsItemOrders : String := "10008=orders"

/-- Field name that is not an attribute of the broker. -/
def noSuchFieldName : String := "NoSuchField"

/-- The setattr loop of fromApp (lines 194-196) over the broker attribute
namespace: hasattr(self.broker, key) is true for every existing attribute,
snapshot field or not, and setattr then overwrites that attribute with the
coerced value, whatever the attribute held before; a pair whose name
matches no attribute is dropped. -/
def applySnapshotDyn (attrs : List (String × PyAttr)) (result : List (String × PyVal)) :
    List (String × PyAttr) :=
  result.foldl
    (fun a kv => if (alistLookup a kv.1).isSome then alistSet a kv.1 (PyAttr.AVal kv.2) else a)
    attrs

/-- The news branch of fromApp (lines 177-198) acting on the broker
attribute namespace: tokenize and coerce the field pairs, then run the
hasattr-guarded setattr loop over the whole namespace. -/
def fromAppNewsDyn (attrs : List (String × PyAttr)) (items : List (List Char)) :
    Except PyError (List (String × PyAttr)) :=
  match buildNewsResult items [] with
  | Except.error e => Except.error e
  | Except.ok result => Except.ok (applySnapshotDyn attrs result)

/-- The attribute namespace of a freshly constructed FIXBroker, in the
assignment order of __init__ (lines 269-293): config, debug, queue,
startingcash, cash, done, app, orders, positions, executions, settings and
the pre-declared HardBuyingPowerLimit.  Inherited attributes and methods
are also hasattr-visible on the real object; the instance attributes listed
here are the ones the frame claims exercise. -/
def initialBrokerDyn : List (String × PyAttr) :=
  [ (configAttrName, PyAttr.AOther), (debugAttrName, PyAttr.AOther),
    (queueAttrName, PyAttr.AQueue []),
    (startingcashAttrName, PyAttr.AVal (PyVal.VFloat 0)),
    (cashAttrName, PyAttr.AVal (PyVal.VFloat 0)), (doneAttrName, PyAttr.AOther),
    (appAttrName, PyAttr.AOther), (ordersAttrName, PyAttr.AOrders []),
    (positionsAttrName, PyAttr.APositions []), (executionsAttrName, PyAttr.AOther),
    (settingsAttrName, PyAttr.AOther), (hbplKey, PyAttr.AVal (PyVal.VInt 0)) ]

theorem alistLookup_alistSet {α : Type} (l : List (String × α)) (k0 k : String) (v : α) :
    alistLookup (alistSet l k0 v) k = if k0 = k then some v else alistLookup l k := by
  induction l with
  | nil => simp [alistSet, alistLookup]
  | cons hd t ih =>
    obtain ⟨k2, v2⟩ := hd
    by_cases h2 : k2 = k0
    · subst h2
      by_cases h3 : k2 = k <;> simp [alistSet, alistLookup, h3]
    · by_cases h3 : k2 = k
      · subst h3
        have h4 : ¬ k0 = k2 := fun hc => h2 hc.symm
        simp [alistSet, alistLookup, h2, h4]
      · simp [alistSet, alistLookup, h2, h3, ih]

theorem alistSet_isSome_eq {α : Type} (l : List (String × α)) (k0 k : String) (v : α)
    (h : (alistLookup l k0).isSome = true) :
    (alistLookup (alistSet l k0 v) k).isSome = (alistLookup l k).isSome := by
  rw [alistLookup_alistSet]
  by_cases h2 : k0 = k
  · subst h2
    simp [h]
  · simp [h2]

theorem applySnapshotDyn_isSome (result : List (String × PyVal)) :
    ∀ (attrs : List (String × PyAttr)) (k : String),
      (alistLookup (applySnapshotDyn attrs result) k).isSome = (alistLookup attrs k).isSome := by
  induction result with
  | nil => intro attrs k; rfl
  | cons kv rest ih =>
    intro attrs k
    have hstep : applySnapshotDyn attrs (kv :: rest) =
        applySnapshotDyn
          (if (alistLookup attrs kv.1).isSome then alistSet attrs kv.1 (PyAttr.AVal kv.2)
           else attrs) rest := rfl
    rw [hstep]
    by_cases h : (alistLookup attrs kv.1).isSome = true
    · simp only [h, if_true, ih, alistSet_isSome_eq attrs kv.1 k (PyAttr.AVal kv.2) h]
    · rw [if_neg h]
      exact ih attrs k

theorem applySnapshotDyn_untouched (result : List (String × PyVal)) :
    ∀ (attrs : List (String × PyAttr)) (k : String),
      (∀ kv, kv ∈ result → kv.1 ≠ k) →
      alistLookup (applySnapshotDyn attrs result) k = alistLookup attrs k := by
  induction result with
  | nil => intro attrs k h; rfl
  | cons kv rest ih =>
    intro attrs k h
    have hstep : applySnapshotDyn attrs (kv :: rest) =
        applySnapshotDyn
          (if (alistLookup attrs kv.1).isSome then alistSet attrs kv.1 (PyAttr.AVal kv.2)
           else attrs) rest := rfl
    rw [hstep]
    have hk : kv.1 ≠ k := h kv (List.mem_cons_self kv rest)
    have hrest : ∀ kv2, kv2 ∈ rest → kv2.1 ≠ k :=
      fun kv2 hm => h kv2 (List.mem_cons_of_mem kv hm)
    rw [ih _ k hrest]
    by_cases hs : (alistLookup attrs kv.1).isSome = true
    · rw [if_pos hs, alistLookup_alistSet, if_neg hk]
    · rw [if_neg hs]

theorem applyFills_invariant (sym : String) :
    ∀ (fills : List (Rat × Rat)) (ps : List (String × Position)) (pos0 : Position),
      alistLookup ps sym = some pos0 →
      (∀ i : Fin fills.length, pos0.size + fillVolume (fills.take (i.1 + 1)) ≠ 0) →
      ∃ pos2, alistLookup (applyFills ps sym fills) sym = some pos2 ∧
        pos2.size = pos0.size + fillVolume fills ∧
        pos2.price * pos2.size = pos0.price * pos0.size + fillCost fills := by
  intro fills
  induction fills with
  | nil =>
    intro ps pos0 h0 hpre
    exact ⟨pos0, h0, by simp [fillVolume, applyFills], by simp [fillCost]⟩
  | cons f rest ih =>
    intro ps pos0 h0 hpre
    have hne : pos0.size + f.2 ≠ 0 := by
      have hx := hpre ⟨0, by simp⟩
      simpa [fillVolume] using hx
    have hstep : update_position ps sym f.1 f.2 =
        { size := pos0.size + f.2,
          price := (pos0.price * pos0.size + f.1 * f.2) / (pos0.size + f.2) } := by
      simp [update_position, h0, update_existing, hne]
    have h1 : alistLookup (alistSet ps sym (update_position ps sym f.1 f.2)) sym =
        some { size := pos0.size + f.2,
               price := (pos0.price * pos0.size + f.1 * f.2) / (pos0.size + f.2) } := by
      rw [alistLookup_alistSet, hstep]
      simp
    have hpre1 : ∀ i : Fin rest.length,
        ({ size := pos0.size + f.2,
           price := (pos0.price * pos0.size + f.1 * f.2) / (pos0.size + f.2) } : Position).size +
          fillVolume (rest.take (i.1 + 1)) ≠ 0 := by
      intro i
      have hx := hpre ⟨i.1 + 1, Nat.succ_lt_succ i.2⟩
      simp only [fillVolume, List.take_succ_cons, List.map_cons, List.sum_cons] at hx ⊢
      intro hcon
      apply hx
      rw [← add_assoc]
      exact hcon
    obtain ⟨pos2, hl2, hsz, hpc⟩ :=
      ih (alistSet ps sym (update_position ps sym f.1 f.2)) _ h1 hpre1
    refine ⟨pos2, ?_, ?_, ?_⟩
    · simpa [applyFills] using hl2
    · rw [hsz]
      simp only [fillVolume, List.map_cons, List.sum_cons]
      ring
    · rw [hpc]
      simp only
      rw [div_mul_cancel₀ _ hne]
      simp only [fillCost, List.map_cons, List.sum_cons]
      ring

/-- C1: evaluating update_position at an exactly offsetting fill (position X
at size 50, price 10; fill at price 11, signed size -50).  The source leaves
the position at size 50, price 10 instead of zeroing the size, because the
size increment sits inside the nonzero-sum guard; consequently a subsequent
fill (price 20, size 10) averages against the stale size and yields price
35/3 rather than starting a fresh average at the fill price. -/
theorem c1_flatten_leaves_size_unchanged :
    update_position [(symX, { size := 50, price := 10 })] symX 11 (-50) =
      { size := 50, price := 10 } ∧
    update_position [(symX, { size := 50, price := 10 })] symX 20 10 =
      { size := 60, price := 35 / 3 } := by
  constructor <;> norm_num [update_position, alistLookup, update_existing]

/-- C2 counterexample: a Fill execution report whose client order id was
never registered still modifies the position map, because the Fill branch
applies the fill to the Position Ledger before consulting the order
registry; processing is therefore not free of state changes. -/
theorem c2_unknown_fill_moves_position :
    (execReportEffect brokerWithPosX fillReportUnknown).positions ≠
      brokerWithPosX.positions := by
  have hbs : ¬ (Side.Buy = Side.Sell) := by decide
  norm_num [execReportEffect, brokerWithPosX, fillReportUnknown, update_position,
    update_existing, alistLookup, alistSet, Position.mk.injEq, hbs]

/-- C2 (amended): an execution report whose client order id is not registered
never creates or transitions an order and never enqueues a notification, and
for PendingNew, New, Rejected and Canceled reports the whole state is
unchanged; a Fill (or position snapshot) report however still updates the
position map. -/
theorem c2_unknown_id_no_order_change (b : BrokerState) (r : ExecReport)
    (h : alistLookup b.orders r.clOrdID = none) :
    (execReportEffect b r).orders = b.orders ∧
    (execReportEffect b r).queue = b.queue ∧
    (execReportEffect b r).attrs = b.attrs ∧
    (r.etype ≠ ExecType.Fill → r.etype ≠ ExecType.PositionSnapshot →
      execReportEffect b r = b) := by
  obtain ⟨et, oid, sym2, sd, pr, oq, cq⟩ := r
  cases et <;> simp_all [execReportEffect, transitionAndNotify]

/-- C2 witness: the amended statement evaluated on a PendingNew report whose
order id is unknown to the initial broker. -/
theorem c2_unknown_id_witness :
    (execReportEffect initialBroker pendingReportUnknown).orders = initialBroker.orders ∧
    (execReportEffect initialBroker pendingReportUnknown).queue = initialBroker.queue ∧
    (execReportEffect initialBroker pendingReportUnknown).attrs = initialBroker.attrs ∧
    (pendingReportUnknown.etype ≠ ExecType.Fill →
      pendingReportUnknown.etype ≠ ExecType.PositionSnapshot →
      execReportEffect initialBroker pendingReportUnknown = initialBroker) :=
  c2_unknown_id_no_order_change initialBroker pendingReportUnknown rfl

/-- C3: evaluating the Fill branch on a registered order (order A Accepted,
fill buy 100 at 21/2 on X): the order becomes Completed, the execution
detail is recorded and the position is stored, but the notification queue is
left unchanged, refuting the claimed enqueue. -/
theorem c3_fill_completes_without_notification :
    (execReportEffect brokerWithOrderA fillReportA).queue = brokerWithOrderA.queue ∧
    alistLookup (execReportEffect brokerWithOrderA fillReportA).orders oidA =
      some { order_id := oidA, status := OrderStatus.Completed,
             executed := some { price := 21 / 2, size := 100, psize := 100, pprice := 21 / 2 } } ∧
    alistLookup (execReportEffect brokerWithOrderA fillReportA).positions symX =
      some { size := 100, price := 21 / 2 } := by
  have hbs : ¬ (Side.Buy = Side.Sell) := by decide
  norm_num [execReportEffect, brokerWithOrderA, fillReportA, orderAccepted,
    update_position, update_existing, alistLookup, alistSet, hbs]

/-- C4: evaluating cancel on an order id that is not in the registry: the
not-found guard tests the always-truthy builtin ord instead of the looked up
order, so the None lookup reaches the status attribute access and raises
AttributeError instead of returning as a no-op. -/
theorem c4_cancel_missing_order_raises :
    cancel initialBroker oidMissing = Except.error PyError.attrErrorNoneStatus := rfl

/-- C5 counterexample: order A is in the terminal Completed status, yet
processing a later Canceled execution report for it moves the status to
Canceled, so terminal states are not sinks. -/
theorem c5_canceled_report_exits_completed :
    Option.map FIXOrder.status (alistLookup brokerWithCompletedA.orders oidA) =
      some OrderStatus.Completed ∧
    Option.map FIXOrder.status
        (alistLookup (execReportEffect brokerWithCompletedA cancelReportA).orders oidA) =
      some OrderStatus.Canceled :=
  ⟨rfl, rfl⟩

/-- C5 (amended): each execution report applies the status dictated by its
exec type to any registered order unconditionally, regardless of the current
status; in particular a terminal status can be overwritten by a later
report. -/
theorem c5_transitions_unconditional (b : BrokerState) (r : ExecReport) (o : FIXOrder)
    (st : OrderStatus) (h1 : alistLookup b.orders r.clOrdID = some o)
    (h2 : execStatusOf r.etype = some st) :
    Option.map FIXOrder.status (alistLookup (execReportEffect b r).orders r.clOrdID) =
      some st := by
  obtain ⟨et, oid, sym2, sd, pr, oq, cq⟩ := r
  cases et <;>
    simp_all [execStatusOf, execReportEffect, transitionAndNotify, notify, alistLookup_alistSet]

/-- C5 witness: the amended statement evaluated on the Completed order A and
a Canceled report for it. -/
theorem c5_transitions_witness :
    Option.map FIXOrder.status
        (alistLookup (execReportEffect brokerWithCompletedA cancelReportA).orders
          cancelReportA.clOrdID) =
      some OrderStatus.Canceled :=
  c5_transitions_unconditional brokerWithCompletedA cancelReportA orderCompleted
    OrderStatus.Canceled rfl rfl

/-- C6: the averaging rule of update_position — for an existing position of
size s and price p and a fill (price q, signed size d) with s + d nonzero,
the result has size s + d and price (p·s + q·d)/(s + d); consequently, for
every nonempty sequence of fills applied from a flat (never traded) start
whose running net size never passes through zero, the resulting position
carries the total volume and the volume-weighted mean price of the fills. -/
theorem c6_vwap_update :
    (∀ (ps : List (String × Position)) (sym : String) (s p q d : Rat),
        alistLookup ps sym = some { size := s, price := p } → s + d ≠ 0 →
        update_position ps sym q d = { size := s + d, price := (p * s + q * d) / (s + d) }) ∧
    (∀ (sym : String) (fills : List (Rat × Rat)), fills ≠ [] →
        (∀ i : Fin fills.length, fillVolume (fills.take (i.1 + 1)) ≠ 0) →
        alistLookup (applyFills [] sym fills) sym =
          some { size := fillVolume fills, price := fillCost fills / fillVolume fills }) := by
  constructor
  · intro ps sym s p q d h0 hne
    simp [update_position, h0, update_existing, hne]
  · intro sym fills hnil hpre
    match fills, hnil with
    | f :: rest, _ =>
      have h1 : alistLookup (alistSet ([] : List (String × Position)) sym
          (update_position [] sym f.1 f.2)) sym = some { size := f.2, price := f.1 } := by
        simp [update_position, alistLookup, alistSet]
      have hpre1 : ∀ i : Fin rest.length,
          ({ size := f.2, price := f.1 } : Position).size +
            fillVolume (rest.take (i.1 + 1)) ≠ 0 := by
        intro i
        have hx := hpre ⟨i.1 + 1, Nat.succ_lt_succ i.2⟩
        simp only [fillVolume, List.take_succ_cons, List.map_cons, List.sum_cons] at hx ⊢
        exact hx
      obtain ⟨pos2, hl2, hsz, hpc⟩ := applyFills_invariant sym rest _ _ h1 hpre1
      have hS : fillVolume (f :: rest) ≠ 0 := by
        have hx := hpre ⟨rest.length, by simp⟩
        simpa using hx
      have hsz2 : pos2.size = fillVolume (f :: rest) := by
        rw [hsz]
        simp [fillVolume]
      have hpc2 : pos2.price * pos2.size = fillCost (f :: rest) := by
        rw [hpc]
        simp [fillCost]
      have hp : pos2.price = fillCost (f :: rest) / fillVolume (f :: rest) := by
        rw [eq_div_iff hS, ← hsz2]
        exact hpc2
      rw [← hp, ← hsz2]
      simpa [applyFills] using hl2

/-- C6 witness: the single-step rule at position (size 2, price 10) with a
fill of 2 at 20, and the sequence rule on the fills (10, 1), (16, 2) from a
flat start, giving volume 3 at volume-weighted price 14. -/
theorem c6_vwap_witness :
    update_position [(symX, { size := 2, price := 10 })] symX 20 2 =
      { size := 4, price := 15 } ∧
    alistLookup (applyFills [] symX [((10 : Rat), (1 : Rat)), (16, 2)]) symX =
      some { size := 3, price := 14 } := by
  constructor
  · have h1 := c6_vwap_update.1 [(symX, { size := 2, price := 10 })] symX 2 10 20 2 rfl
      (by norm_num)
    rw [h1]
    norm_num
  · have hpre : ∀ i : Fin ([((10 : Rat), (1 : Rat)), (16, 2)]).length,
        fillVolume (([((10 : Rat), (1 : Rat)), (16, 2)]).take (i.1 + 1)) ≠ 0 := by
      intro i
      fin_cases i <;> norm_num [fillVolume]
    have h2 := c6_vwap_update.2 symX [((10 : Rat), (1 : Rat)), (16, 2)] (by simp) hpre
    rw [h2]
    norm_num [fillVolume, fillCost, Position.mk.injEq]

/-- C8: get_notification on an empty queue returns none together with the
unchanged state, without raising; on a nonempty queue it dequeues and
returns the head, which is the oldest entry since notify appends at the
tail. -/
theorem c8_poll_fifo (b : BrokerState) :
    (b.queue = [] → get_notification b = (none, b)) ∧
    (∀ o rest, b.queue = o :: rest → get_notification b = (some o, { b with queue := rest })) ∧
    (∀ o, (notify b o).queue = b.queue ++ [o]) := by
  refine ⟨?_, ?_, ?_⟩
  · intro h
    simp [get_notification, h]
  · intro o rest h
    simp [get_notification, h]
  · intro o
    rfl

/-- C8 witness: the poll contract evaluated on the empty initial broker and
on a broker holding one queued order. -/
theorem c8_poll_witness :
    get_notification initialBroker = (none, initialBroker) ∧
    get_notification brokerWithNotif = (some notifOrder, { brokerWithNotif with queue := [] }) ∧
    (notify initialBroker notifOrder).queue = initialBroker.queue ++ [notifOrder] :=
  ⟨(c8_poll_fifo initialBroker).1 rfl,
   (c8_poll_fifo brokerWithNotif).2.1 notifOrder [] rfl,
   (c8_poll_fifo initialBroker).2.2 notifOrder⟩

/-- C9: getposition on a symbol with no position entry is not a pure read:
it returns the flat default and stores it in the position map, so the symbol
is afterwards present and a later fill for it goes through the
existing-position branch of update_position (which differs observably from
the fresh-open branch, as the last conjunct shows at a fill of size 0). -/
theorem c9_getposition_materializes (b : BrokerState) (sym : String)
    (h : alistLookup b.positions sym = none) :
    getposition b sym =
      (Position.default, { b with positions := alistSet b.positions sym Position.default }) ∧
    alistLookup (getposition b sym).2.positions sym = some Position.default ∧
    (∀ q d : Rat, update_position (getposition b sym).2.positions sym q d =
      update_existing Position.default q d) ∧
    update_existing Position.default 1 0 ≠ { size := 0, price := 1 } := by
  have h1 : getposition b sym =
      (Position.default, { b with positions := alistSet b.positions sym Position.default }) := by
    simp [getposition, h]
  have h2 : alistLookup (getposition b sym).2.positions sym = some Position.default := by
    rw [h1]
    simp [alistLookup_alistSet]
  refine ⟨h1, h2, ?_, ?_⟩
  · intro q d
    simp [update_position, h2]
  · norm_num [update_existing, Position.mk.injEq, Position.default]

/-- C9 witness: the materialization evaluated on the initial broker, which
has never traded symbol X. -/
theorem c9_getposition_witness :
    getposition initialBroker symX =
      (Position.default,
        { initialBroker with positions := alistSet initialBroker.positions symX Position.default }) ∧
    alistLookup (getposition initialBroker symX).2.positions symX = some Position.default ∧
    (∀ q d : Rat, update_position (getposition initialBroker symX).2.positions symX q d =
      update_existing Position.default q d) ∧
    update_existing Position.default 1 0 ≠ { size := 0, price := 1 } :=
  c9_getposition_materializes initialBroker symX rfl

/-- C10 counterexample: the hasattr guard of the setattr loop ranges over
the whole broker attribute namespace, not only snapshot fields, so a news
message naming the orders attribute (pair 10008 with value orders, pair 58
with value 5) overwrites the order registry of a freshly constructed broker
with the int 5: broker state beyond the snapshot fields is changed, and the
pair is not discarded. -/
theorem c10_news_overwrites_orders :
    alistLookup initialBrokerDyn ordersAttrName = some (PyAttr.AOrders []) ∧
    ∃ a2, fromAppNewsDyn initialBrokerDyn [newsItemOrders.toList, newsItemD.toList] =
        Except.ok a2 ∧
      alistLookup a2 ordersAttrName = some (PyAttr.AVal (PyVal.VInt 5)) :=
  ⟨rfl, applySnapshotDyn initialBrokerDyn [(ordersAttrName, PyVal.VInt 5)], rfl, rfl⟩

/-- C10 (amended): processing a news message overwrites exactly the existing
broker attributes named by its field pairs, over the whole attribute
namespace (snapshot fields and other broker state such as orders, positions
and queue alike): whenever parsing succeeds, a pair whose name matches no
existing attribute is silently discarded and no new attribute is created
(the key set of the namespace is preserved), and every attribute not named
by any parsed pair keeps its value. -/
theorem c10_news_namespace_frame (attrs : List (String × PyAttr)) (items : List (List Char))
    (result : List (String × PyVal)) (h : buildNewsResult items [] = Except.ok result) :
    fromAppNewsDyn attrs items = Except.ok (applySnapshotDyn attrs result) ∧
    (∀ k, (alistLookup (applySnapshotDyn attrs result) k).isSome =
      (alistLookup attrs k).isSome) ∧
    (∀ k, (∀ kv, kv ∈ result → kv.1 ≠ k) →
      alistLookup (applySnapshotDyn attrs result) k = alistLookup attrs k) := by
  refine ⟨?_, ?_, ?_⟩
  · simp only [fromAppNewsDyn, h]
  · intro k
    exact applySnapshotDyn_isSome result attrs k
  · intro k hk
    exact applySnapshotDyn_untouched result attrs k hk

/-- C10 witness: the amended frame evaluated on the fresh broker namespace
and a news message naming an unknown field, whose pair is dropped. -/
theorem c10_news_namespace_witness :
    fromAppNewsDyn initialBrokerDyn [newsItemC.toList, newsItemD.toList] =
      Except.ok (applySnapshotDyn initialBrokerDyn [(noSuchFieldName, PyVal.VInt 5)]) ∧
    (∀ k, (alistLookup (applySnapshotDyn initialBrokerDyn [(noSuchFieldName, PyVal.VInt 5)]) k).isSome =
      (alistLookup initialBrokerDyn k).isSome) ∧
    (∀ k, (∀ kv, kv ∈ [(noSuchFieldName, PyVal.VInt 5)] → kv.1 ≠ k) →
      alistLookup (applySnapshotDyn initialBrokerDyn [(noSuchFieldName, PyVal.VInt 5)]) k =
        alistLookup initialBrokerDyn k) :=
  c10_news_namespace_frame initialBrokerDyn [newsItemC.toList, newsItemD.toList]
    [(noSuchFieldName, PyVal.VInt 5)] rfl

/-- C7: processing a news message that carries the pair (10008 naming
HardBuyingPowerLimit, 58 with value 98765.43) on any broker that has the
HardBuyingPowerLimit attribute: the value fails int coercion, succeeds float
coercion to the rational 9876543/100, and afterwards getcash and getvalue
both return that float; the two queries read the same attribute on every
state. -/
theorem c7_news_sets_buying_power (b : BrokerState)
    (h : (alistLookup b.attrs hbplKey).isSome = true) :
    pyInt? hbplVal.toList = none ∧
    pyFloat? hbplVal.toList = some (9876543 / 100) ∧
    (∀ b3 : BrokerState, getvalue b3 = getcash b3) ∧
    ∃ b2, fromApp b (FIXMessage.news [newsItemHdr.toList, newsItemA.toList, newsItemB.toList]) =
        Except.ok b2 ∧
      getcash b2 = PyVal.VFloat (9876543 / 100) ∧
      getvalue b2 = PyVal.VFloat (9876543 / 100) := by
  have hi : pyInt? hbplVal.toList = none := by decide
  have hf : pyFloat? hbplVal.toList = some (9876543 / 100) := by
    have h0 : pyFloat? hbplVal.toList =
        some (((1 : Int) : Rat) *
          ((digitsVal ['9', '8', '7', '6', '5'] : Rat) +
            (digitsVal ['4', '3'] : Rat) / ((10 ^ 2 : Nat) : Rat))) := rfl
    have d1 : digitsVal ['9', '8', '7', '6', '5'] = 98765 := by decide
    have d2 : digitsVal ['4', '3'] = 43 := by decide
    rw [h0, d1, d2]
    norm_num
  have hc : pyCoerce hbplVal.toList = PyVal.VFloat (9876543 / 100) := by
    simp only [pyCoerce, hi, hf]
  have hbuild : buildNewsResult [newsItemHdr.toList, newsItemA.toList, newsItemB.toList] [] =
      Except.ok [(hbplKey, pyCoerce hbplVal.toList)] := rfl
  rw [hc] at hbuild
  have hset : applySnapshot b.attrs [(hbplKey, PyVal.VFloat (9876543 / 100))] =
      alistSet b.attrs hbplKey (PyVal.VFloat (9876543 / 100)) := by
    simp [applySnapshot, h]
  refine ⟨hi, hf, fun b3 => rfl, ?_⟩
  refine ⟨{ b with attrs := applySnapshot b.attrs [(hbplKey, PyVal.VFloat (9876543 / 100))] },
    ?_, ?_, ?_⟩
  · simp only [fromApp, hbuild]
  · simp [getcash, hset, alistLookup_alistSet]
  · simp [getvalue, hset, alistLookup_alistSet]

/-- C7 witness: the scenario evaluated on the initial broker, whose
attribute table declares HardBuyingPowerLimit. -/
theorem c7_news_witness :
    pyInt? hbplVal.toList = none ∧
    pyFloat? hbplVal.toList = some (9876543 / 100) ∧
    (∀ b3 : BrokerState, getvalue b3 = getcash b3) ∧
    ∃ b2, fromApp initialBroker
        (FIXMessage.news [newsItemHdr.toList, newsItemA.toList, newsItemB.toList]) =
        Except.ok b2 ∧
      getcash b2 = PyVal.VFloat (9876543 / 100) ∧
      getvalue b2 = PyVal.VFloat (9876543 / 100) :=
  c7_news_sets_buying_power initialBroker rfl
